import Mathlib

/-!
Verification of the Wake Vision dataset-curation pipeline
(`wake_vision_loader.py`): label derivation from image-level and
bounding-box annotations, center-crop geometry, and class balancing.

Machine floats are modelled as exact rationals (ℚ); `tf.cast` from a
float to an integer type truncates toward zero and is modelled by
`truncQ`; TensorFlow integer floor division `//` is modelled by `Int`
division (which floors).  Stream combinators over `tf.data` datasets
are modelled on finite lists, with the random interleaving of
`sample_from_datasets` parameterised by an explicit draw schedule.
-/

namespace WakeVision

/-- Truncation of a rational toward zero, the semantics of
`tf.cast(x, tf.int32)` for a float `x`. -/
def truncQ (q : ℚ) : ℤ := if 0 ≤ q then ⌊q⌋ else ⌈q⌉

/-- A normalized bounding box `[y_min, x_min, y_max, x_max]`, the row format
of `bobjects["bbox"]` (`wake_vision_loader.py` lines 200, 223–256). -/
structure BB where
  y0 : ℚ
  x0 : ℚ
  y1 : ℚ
  x1 : ℚ
deriving DecidableEq, Repr

/-- One image-level annotation of a record: a row of `objects["label"]`
together with its confidence score (schema of the external dataset;
the loader reads only `objects["label"]`). -/
structure IDet where
  label : ℤ
  confidence : ℚ
deriving DecidableEq, Repr

/-- One bounding-box annotation of a record: parallel rows of
`bobjects["label"]`, `bobjects["bbox"]` and `bobjects["is_depiction"]`. -/
structure BDet where
  label : ℤ
  bbox : BB
  is_depiction : ℤ
deriving DecidableEq, Repr

/-- A `ds_entry` of the source dataset: image dimensions plus the
image-level (`objects`) and bounding-box (`bobjects`) annotation arrays. -/
structure DsEntry where
  image_h : ℕ
  image_w : ℕ
  objects : List IDet
  bobjects : List BDet
deriving DecidableEq, Repr

/-- The label mode dispatch of `open_images_to_vww2` (lines 13–27):
`cfg.LABEL_TYPE` must be `"image"` or `"bbox"`. -/
inductive LabelTypeCfg
  | image
  | bbox
deriving DecidableEq, Repr

/-- The configuration values of `experiment_config` read by the loader. -/
structure Cfg where
  LABEL_TYPE : LabelTypeCfg
  MIN_IMAGE_LEVEL_CONFIDENCE : ℚ
  MIN_BBOX_SIZE : ℚ
  INPUT_SHAPE_H : ℕ
  INPUT_SHAPE_W : ℕ
  COUNT_PERSON_SAMPLES_TRAIN : ℕ
  COUNT_PERSON_SAMPLES_VAL : ℕ
  COUNT_PERSON_SAMPLES_TEST : ℕ
deriving DecidableEq, Repr

/-- TensorFlow boolean-mask selection `tensor[mask]` along the first axis:
fails (shape error) unless the mask length equals the tensor's first
dimension; otherwise keeps the rows where the mask is true. -/
def booleanMask {α : Type} (mask : List Bool) (xs : List α) : Option (List α) :=
  if mask.length = xs.length then
    some ((mask.zip xs).filterMap fun p => if p.1 then some p.2 else none)
  else none

/-- Embedding of `check_image_level_label` (lines 169–182).  The equality
mask is built from `objects["label"]`, but the "confidence" it is applied
to is `ds_entry["bobjects"]["bbox"]` (line 173): a `[k,4]` tensor of box
coordinates.  `tf.math.greater_equal` then compares every coordinate of
every selected row against `MIN_IMAGE_LEVEL_CONFIDENCE` and `reduce_any`
folds over all of them.  The boolean mask fails when the number of
image-level labels differs from the number of bounding boxes. -/
def check_image_level_label (e : DsEntry) (labelNumber : ℤ) (cfg : Cfg) :
    Option Bool :=
  let mask := e.objects.map fun d => d.label == labelNumber
  (booleanMask mask (e.bobjects.map fun d => d.bbox)).map fun rows =>
    rows.any fun r =>
      decide (cfg.MIN_IMAGE_LEVEL_CONFIDENCE ≤ r.y0) ||
      decide (cfg.MIN_IMAGE_LEVEL_CONFIDENCE ≤ r.x0) ||
      decide (cfg.MIN_IMAGE_LEVEL_CONFIDENCE ≤ r.y1) ||
      decide (cfg.MIN_IMAGE_LEVEL_CONFIDENCE ≤ r.x1)

/-- Modelled from the spec: the image-level significance test as the spec
describes it — for a given concept id, "present" iff some image-level
detection with that concept id has confidence ≥ `MIN_IMAGE_LEVEL_CONFIDENCE`,
depending only on the `objects` annotations. -/
def check_image_level_label_spec (e : DsEntry) (labelNumber : ℤ) (cfg : Cfg) :
    Bool :=
  e.objects.any fun d =>
    d.label == labelNumber && decide (cfg.MIN_IMAGE_LEVEL_CONFIDENCE ≤ d.confidence)

/-- The derived crop geometry of `check_bbox_label` (lines 203–221):
resized image dimensions, crop offsets, and the crop window in
resized-image-normalized coordinates. -/
structure CropParams where
  imageH : ℤ
  imageW : ℤ
  dy : ℤ
  dx : ℤ
  cropYMin : ℚ
  cropYMax : ℚ
  cropXMin : ℚ
  cropXMax : ℚ
deriving DecidableEq, Repr

/-- Embedding of lines 203–221 of `check_bbox_label`: `scale = h / small_side`
(true division), the scaled dimensions are cast to `int32` (truncation toward
zero, `truncQ`), guarded below by the crop target, and the crop offsets use
integer floor division by 2. -/
def cropParams (origH origW targetH targetW : ℕ) : CropParams :=
  let smallSide : ℕ := min origH origW
  let scale : ℚ := (targetH : ℚ) / (smallSide : ℚ)
  let imageH0 : ℤ := truncQ ((origH : ℚ) * scale)
  let imageW0 : ℤ := truncQ ((origW : ℚ) * scale)
  let imageH : ℤ := if imageH0 > (targetH : ℤ) then imageH0 else (targetH : ℤ)
  let imageW : ℤ := if imageW0 > (targetW : ℤ) then imageW0 else (targetW : ℤ)
  let dy : ℤ := (imageH - (targetH : ℤ)) / 2
  let dx : ℤ := (imageW - (targetW : ℤ)) / 2
  { imageH := imageH
    imageW := imageW
    dy := dy
    dx := dx
    cropYMin := (dy : ℚ) / (imageH : ℚ)
    cropYMax := ((dy + (targetH : ℤ) : ℤ) : ℚ) / (imageH : ℚ)
    cropXMin := (dx : ℚ) / (imageW : ℚ)
    cropXMax := ((dx + (targetW : ℤ) : ℤ) : ℚ) / (imageW : ℚ) }

/-- The crop-relative coordinate of one box edge (lines 234–251): the
normalized coordinate is scaled to original pixels and cast to `int32`
(truncation), shifted by the crop offset, and divided by the crop target. -/
def cropRel (orig : ℕ) (offset : ℤ) (target : ℕ) (v : ℚ) : ℚ :=
  (((truncQ (v * (orig : ℚ)) - offset : ℤ) : ℚ)) / (target : ℚ)

/-- Embedding of the per-box body of the loop in `check_bbox_label`
(lines 223–256): `none` when the box is completely outside the crop window
(`continue`), otherwise the effective box after the boundary-extension
conditionals of lines 253–256. -/
def cropBBox (origH origW targetH targetW : ℕ) (b : BB) : Option BB :=
  let p := cropParams origH origW targetH targetW
  if b.y0 > p.cropYMax ∨ b.y1 < p.cropYMin ∨ b.x0 > p.cropXMax ∨ b.x1 < p.cropXMin
  then none
  else
    some
      { y0 := if b.y0 > p.cropYMin then cropRel origH p.dy targetH b.y0 else 0
        x0 := if b.x0 > p.cropXMin then cropRel origW p.dx targetW b.x0 else 0
        y1 := if b.y1 < p.cropYMax then cropRel origH p.dy targetH b.y1 else 1
        x1 := if b.x1 < p.cropXMax then cropRel origW p.dx targetW b.x1 else 1 }

/-- Embedding of `check_bbox_label` (lines 186–264): among the non-depiction
boxes carrying `labelNumber`, return true iff some box survives the crop and
its effective area exceeds `MIN_BBOX_SIZE`. -/
def check_bbox_label (e : DsEntry) (labelNumber : ℤ) (cfg : Cfg) : Bool :=
  let boxes :=
    (e.bobjects.filter fun d => d.label == labelNumber && d.is_depiction == 0).map
      fun d => d.bbox
  boxes.any fun b =>
    match cropBBox e.image_h e.image_w cfg.INPUT_SHAPE_H cfg.INPUT_SHAPE_W b with
    | none => false
    | some bb => decide ((bb.y1 - bb.y0) * (bb.x1 - bb.x0) > cfg.MIN_BBOX_SIZE)

/-- The image-level concept ids checked for a positive label
(lines 49–68), in source order, duplicates included. -/
def core_image_concepts : List ℤ :=
  [14048, 20610, 11417, 8000, 2519, 9270, 9274, 9279, 9266, 6713, 11395,
   3895, 10483, 11417, 11417, 139, 20808]

/-- The image-level concept ids checked for an ambiguous label
(lines 72–85). -/
def ambiguous_image_concepts : List ℤ :=
  [9273, 17150, 9282, 9272, 9283, 9276, 9278, 9275, 9269, 9281, 1661]

/-- The bounding-box concept ids checked for a positive label
(lines 98–105). -/
def core_bbox_concepts : List ℤ :=
  [68, 227, 307, 332, 50, 176, 501, 291]

/-- The bounding-box concept ids whose raw presence (no size or depiction
test) makes a record ambiguous (lines 110–160). -/
def ambiguous_bbox_concepts : List ℤ :=
  [176, 14, 29, 147, 223, 567, 252, 572, 213, 502, 220, 20,
   68, 227, 307, 332, 50, 501, 291]

/-- Embedding of `label_person_image_labels` (lines 48–90).  The result is
`none` when `check_image_level_label` raises (boolean-mask shape error). -/
def label_person_image_labels (e : DsEntry) (cfg : Cfg) : Option ℤ := do
  let core ← core_image_concepts.mapM fun n => check_image_level_label e n cfg
  if core.any id then
    pure 1
  else
    let amb ← ambiguous_image_concepts.mapM fun n => check_image_level_label e n cfg
    if amb.any id then pure (-1) else pure 0

/-- Embedding of `label_person_bbox_labels` (lines 93–165): empty `bobjects`
gives -1; else a significant core-concept box gives 1; else a raw label match
against the ambiguous list gives -1; else 0. -/
def label_person_bbox_labels (e : DsEntry) (cfg : Cfg) : ℤ :=
  if e.bobjects.length = 0 then -1
  else if core_bbox_concepts.any fun n => check_bbox_label e n cfg then 1
  else if ambiguous_bbox_concepts.any fun n => e.bobjects.any fun d => d.label == n
    then -1
  else 0

/-- A record with its derived `"person"` field attached, the element type of
the labeled stream. -/
structure LEntry where
  entry : DsEntry
  person : ℤ
deriving DecidableEq, Repr

/-- Embedding of `person_filter` (lines 267–268). -/
def person_filter (e : LEntry) : Bool := e.person == 1

/-- Embedding of `non_person_filter` (lines 271–272). -/
def non_person_filter (e : LEntry) : Bool := e.person == 0

/-- The labeling map of `open_images_to_vww2` (lines 13–27): attach the
derived label to every record of the split, in the configured mode.  In
image mode a shape error in any record aborts the pipeline (`none`). -/
def label_split (cfg : Cfg) (l : List DsEntry) : Option (List LEntry) :=
  match cfg.LABEL_TYPE with
  | .image => l.mapM fun e =>
      (label_person_image_labels e cfg).map fun p => LEntry.mk e p
  | .bbox => some (l.map fun e => LEntry.mk e (label_person_bbox_labels e cfg))

/-- Fuel-indexed interleaving of two finite streams under a draw schedule,
the semantics of `tf.data.Dataset.sample_from_datasets` with
`stop_on_empty_dataset=False` (lines 39–43): each draw takes the head of the
scheduled stream; once one stream is exhausted the merge keeps drawing from
the remaining one, and it terminates only when both are exhausted. -/
def sampleFuel {α : Type} : ℕ → (ℕ → Bool) → ℕ → List α → List α → List α
  | 0, _, _, a, b => a ++ b
  | fuel + 1, draw, i, a, b =>
    match a, b with
    | [], b => b
    | x :: xs, [] => x :: xs
    | x :: xs, y :: ys =>
      if draw i then x :: sampleFuel fuel draw (i + 1) xs (y :: ys)
      else y :: sampleFuel fuel draw (i + 1) (x :: xs) ys

/-- Embedding of `tf.data.Dataset.sample_from_datasets` on finite lists:
the fuel suffices to drain both streams. -/
def sample_from_datasets {α : Type} (draw : ℕ → Bool) (a b : List α) : List α :=
  sampleFuel (a.length + b.length) draw 0 a b

/-- The balancing stage of `open_images_to_vww2` (lines 29–43), with the two
`take` bounds kept as separate parameters: split the labeled stream by
`person_filter` / `non_person_filter`, bound each side, and interleave. -/
def class_balancer (draw : ℕ → Bool) (ds : List LEntry) (nPos nNeg : ℕ) :
    List LEntry :=
  sample_from_datasets draw
    ((ds.filter person_filter).take nPos)
    ((ds.filter non_person_filter).take nNeg)

/-- Embedding of `open_images_to_vww2` (lines 11–45): label the split, then
balance with the single `count_person_samples` bound used for both classes. -/
def open_images_to_vww2 (draw : ℕ → Bool) (l : List DsEntry)
    (count_person_samples : ℕ) (cfg : Cfg) : Option (List LEntry) :=
  (label_split cfg l).map fun ds =>
    class_balancer draw ds count_person_samples count_person_samples

/-- The interleaving flags passed to `sample_from_datasets` at lines 39–43:
`stop_on_empty_dataset=False`, `rerandomize_each_iteration=True`, for every
call of `open_images_to_vww2`. -/
structure SampleFlags where
  stop_on_empty_dataset : Bool
  rerandomize_each_iteration : Bool
deriving DecidableEq, Repr

/-- The quota and interleaving parameters of one `open_images_to_vww2`
balancer instantiation. -/
structure BalancerCall where
  posQuota : ℕ
  negQuota : ℕ
  flags : SampleFlags
deriving DecidableEq, Repr

/-- The balancer parameters `open_images_to_vww2` builds from its single
`count_person_samples` argument (lines 34–35 and 39–43). -/
def open_images_balancer_call (count_person_samples : ℕ) : BalancerCall :=
  { posQuota := count_person_samples
    negQuota := count_person_samples
    flags := { stop_on_empty_dataset := false, rerandomize_each_iteration := true } }

/-- The three dataset splits produced by `get_wake_vision` (lines 325–331). -/
inductive Split
  | train
  | validation
  | test
deriving DecidableEq, Repr

/-- The balancer parameters `get_wake_vision` (lines 325–331) passes for each
split: the per-split sample count, through `open_images_to_vww2`. -/
def get_wake_vision_call (cfg : Cfg) : Split → BalancerCall
  | .train => open_images_balancer_call cfg.COUNT_PERSON_SAMPLES_TRAIN
  | .validation => open_images_balancer_call cfg.COUNT_PERSON_SAMPLES_VAL
  | .test => open_images_balancer_call cfg.COUNT_PERSON_SAMPLES_TEST

/-- Modelled from the spec: the resized height as the spec states it,
`resized_h = max(target_height, round(orig_height * scale))` with `round`
to the nearest integer. -/
def resized_h_spec (origH origW targetH : ℕ) : ℤ :=
  max (targetH : ℤ)
    (round ((origH : ℚ) * ((targetH : ℚ) / ((min origH origW : ℕ) : ℚ))))

/-- The boundary-extension behaviour of `cropBBox` on a box overlapping the
crop window: a near edge strictly inside the window keeps its computed
crop-relative value and is exactly 0 when it lies at or before the crop
boundary; a far edge strictly inside keeps its computed value and is exactly
1 when it lies at or past the boundary. -/
def boundaryExtension (origH origW targetH targetW : ℕ) (b : BB) : Prop :=
  ∃ bb, cropBBox origH origW targetH targetW b = some bb ∧
    (b.y0 > (cropParams origH origW targetH targetW).cropYMin →
      bb.y0 = cropRel origH (cropParams origH origW targetH targetW).dy targetH b.y0) ∧
    (b.y0 ≤ (cropParams origH origW targetH targetW).cropYMin → bb.y0 = 0) ∧
    (b.y1 < (cropParams origH origW targetH targetW).cropYMax →
      bb.y1 = cropRel origH (cropParams origH origW targetH targetW).dy targetH b.y1) ∧
    ((cropParams origH origW targetH targetW).cropYMax ≤ b.y1 → bb.y1 = 1) ∧
    (b.x0 > (cropParams origH origW targetH targetW).cropXMin →
      bb.x0 = cropRel origW (cropParams origH origW targetH targetW).dx targetW b.x0) ∧
    (b.x0 ≤ (cropParams origH origW targetH targetW).cropXMin → bb.x0 = 0) ∧
    (b.x1 < (cropParams origH origW targetH targetW).cropXMax →
      bb.x1 = cropRel origW (cropParams origH origW targetH targetW).dx targetW b.x1) ∧
    ((cropParams origH origW targetH targetW).cropXMax ≤ b.x1 → bb.x1 = 1)

/-- A configuration fixture in bbox label mode: confidence threshold 1,
box-size threshold 1/2, 10×10 crop target, quotas 5/2/2. -/
def cfgW : Cfg := ⟨.bbox, 1, 1/2, 10, 10, 5, 2, 2⟩

/-- The same configuration fixture in image label mode. -/
def cfgImageW : Cfg := ⟨.image, 1, 1/2, 10, 10, 5, 2, 2⟩

/-- A well-formed record with one fully confident image-level person
annotation and no bounding-box annotations. -/
def entryNoBoxes : DsEntry := ⟨10, 10, [⟨14048, 1⟩], []⟩

/-- A well-formed record whose only bounding box carries a concept id that
is neither a core person concept nor an ambiguous concept. -/
def entryNonPerson : DsEntry := ⟨10, 10, [], [⟨999, ⟨0, 0, 1, 1⟩, 0⟩]⟩

/-- A well-formed record with a fully confident image-level person annotation
and one bounding box all of whose coordinates are zero. -/
def entryConfidentPerson : DsEntry := ⟨10, 10, [⟨14048, 1⟩], [⟨999, ⟨0, 0, 0, 0⟩, 0⟩]⟩

/-!
Theorems.
-/

/-- The interleaving of two finite streams under any draw schedule is a
permutation of their concatenation: every pending element of either
sub-stream is eventually emitted, exactly once. -/
theorem sampleFuel_perm {α : Type} (fuel : ℕ) (draw : ℕ → Bool) :
    ∀ (i : ℕ) (a b : List α), (sampleFuel fuel draw i a b).Perm (a ++ b) := by
  induction fuel with
  | zero => intro i a b; exact List.Perm.refl _
  | succ fuel ih =>
    intro i a b
    match a, b with
    | [], b => simp [sampleFuel]
    | x :: xs, [] => simp [sampleFuel]
    | x :: xs, y :: ys =>
      rw [sampleFuel]
      by_cases h : draw i
      · rw [if_pos h]
        exact (ih (i + 1) xs (y :: ys)).cons x
      · rw [if_neg h]
        exact ((ih (i + 1) (x :: xs) ys).cons y).trans List.perm_middle.symm

/-- `sample_from_datasets` emits a permutation of the two bounded
sub-streams' concatenation. -/
theorem sample_from_datasets_perm {α : Type} (draw : ℕ → Bool) (a b : List α) :
    (sample_from_datasets draw a b).Perm (a ++ b) :=
  sampleFuel_perm _ draw 0 a b

/-- Any entry passing `person_filter` cannot pass `non_person_filter`. -/
theorem person_filter_excl (e : LEntry) (h1 : person_filter e = true)
    (h2 : non_person_filter e = true) : False := by
  simp only [person_filter, beq_iff_eq] at h1
  simp only [non_person_filter, beq_iff_eq] at h2
  omega

/-- C1 (code bug): `check_image_level_label` does not implement the claimed
pure confidence test over `objects`.  On `entryConfidentPerson` — whose
image-level annotation carries concept 14048 at confidence 1 ≥ the
threshold 1 — the claim demands `true`, but the code reads the "confidence"
from `bobjects["bbox"]` box coordinates and returns `false`; and on
`entryNoBoxes`, where the numbers of image-level labels and bounding boxes
differ, the boolean mask raises a shape error (`none`). -/
theorem check_image_level_label_reads_bbox_coordinates :
    check_image_level_label entryConfidentPerson 14048 cfgW = some false ∧
    check_image_level_label_spec entryConfidentPerson 14048 cfgW = true ∧
    check_image_level_label entryNoBoxes 14048 cfgW = none := by decide

/-- C2: for every box that overlaps the crop window, on each axis
independently, a near edge strictly inside the crop window keeps the
computed crop-relative value; a near edge at or before the crop boundary is
set to exactly 0; a far edge at or past the boundary is set to exactly 1 —
never a clamped intermediate value. -/
theorem cropBBox_boundary_extension (origH origW targetH targetW : ℕ) (b : BB)
    (hov : ¬(b.y0 > (cropParams origH origW targetH targetW).cropYMax ∨
             b.y1 < (cropParams origH origW targetH targetW).cropYMin ∨
             b.x0 > (cropParams origH origW targetH targetW).cropXMax ∨
             b.x1 < (cropParams origH origW targetH targetW).cropXMin)) :
    boundaryExtension origH origW targetH targetW b := by
  simp only [boundaryExtension, cropBBox]
  rw [if_neg hov]
  refine ⟨_, rfl, ?_, ?_, ?_, ?_, ?_, ?_, ?_, ?_⟩
  · intro h
    show (if b.y0 > (cropParams origH origW targetH targetW).cropYMin then _ else _) = _
    rw [if_pos h]
  · intro h
    show (if b.y0 > (cropParams origH origW targetH targetW).cropYMin then _ else _) = _
    rw [if_neg (not_lt.2 h)]
  · intro h
    show (if b.y1 < (cropParams origH origW targetH targetW).cropYMax then _ else _) = _
    rw [if_pos h]
  · intro h
    show (if b.y1 < (cropParams origH origW targetH targetW).cropYMax then _ else _) = _
    rw [if_neg (not_lt.2 h)]
  · intro h
    show (if b.x0 > (cropParams origH origW targetH targetW).cropXMin then _ else _) = _
    rw [if_pos h]
  · intro h
    show (if b.x0 > (cropParams origH origW targetH targetW).cropXMin then _ else _) = _
    rw [if_neg (not_lt.2 h)]
  · intro h
    show (if b.x1 < (cropParams origH origW targetH targetW).cropXMax then _ else _) = _
    rw [if_pos h]
  · intro h
    show (if b.x1 < (cropParams origH origW targetH targetW).cropXMax then _ else _) = _
    rw [if_neg (not_lt.2 h)]

/-- Witness for C2: the spec's own scenario, a 1000×500 image cropped to
224×224 with a box overlapping the crop window. -/
theorem cropBBox_boundary_extension_witness :
    boundaryExtension 1000 500 224 224 ⟨3/10, 1/10, 7/10, 5/10⟩ :=
  cropBBox_boundary_extension 1000 500 224 224 ⟨3/10, 1/10, 7/10, 5/10⟩ (by
    rw [show cropParams 1000 500 224 224 = ⟨448, 224, 112, 0, 1/4, 3/4, 0, 1⟩ from by
      norm_num [cropParams, truncQ]]
    norm_num)

/-- C3: in bbox label mode, a record with zero bounding-box annotations is
labeled AMBIGUOUS (-1), whatever its image-level annotations. -/
theorem label_person_bbox_labels_empty_is_ambiguous (e : DsEntry) (cfg : Cfg)
    (h : e.bobjects = []) : label_person_bbox_labels e cfg = -1 := by
  simp [label_person_bbox_labels, h]

/-- Witness for C3: a record with no bounding boxes but a confident
image-level person annotation is still labeled -1. -/
theorem label_person_bbox_labels_empty_is_ambiguous_witness :
    label_person_bbox_labels entryNoBoxes cfgW = -1 :=
  label_person_bbox_labels_empty_is_ambiguous entryNoBoxes cfgW rfl

/-- C4: whatever the draw schedule, input stream, quota and configuration,
every record of the balanced output stream of `open_images_to_vww2` is
labeled 1 or 0 — an AMBIGUOUS (-1) record never appears. -/
theorem open_images_to_vww2_no_ambiguous (draw : ℕ → Bool) (l : List DsEntry)
    (count : ℕ) (cfg : Cfg) (out : List LEntry) (e : LEntry)
    (hout : open_images_to_vww2 draw l count cfg = some out) (he : e ∈ out) :
    (e.person = 1 ∨ e.person = 0) ∧ e.person ≠ -1 := by
  obtain ⟨ds, -, hcb⟩ := Option.map_eq_some'.1 hout
  rw [← hcb] at he
  simp only [class_balancer] at he
  have hmem := (sample_from_datasets_perm draw _ _).mem_iff.1 he
  rcases List.mem_append.1 hmem with h | h
  · have hp := (List.mem_filter.1 (List.take_subset _ _ h)).2
    have h1 : e.person = 1 := by simpa [person_filter] using hp
    exact ⟨Or.inl h1, by omega⟩
  · have hp := (List.mem_filter.1 (List.take_subset _ _ h)).2
    have h0 : e.person = 0 := by simpa [non_person_filter] using hp
    exact ⟨Or.inr h0, by omega⟩

/-- Witness for C4: a concrete run in bbox mode over one ambiguous record
(no boxes) and one negative record; the drawn output holds only the
negative record, whose label is 0. -/
theorem open_images_to_vww2_no_ambiguous_witness :
    (((⟨entryNonPerson, 0⟩ : LEntry).person = 1 ∨
        (⟨entryNonPerson, 0⟩ : LEntry).person = 0) ∧
      (⟨entryNonPerson, 0⟩ : LEntry).person ≠ -1) :=
  open_images_to_vww2_no_ambiguous (fun _ => true) [entryNoBoxes, entryNonPerson]
    5 cfgW [⟨entryNonPerson, 0⟩] ⟨entryNonPerson, 0⟩ (by decide) (by decide)

/-- C5: for every draw schedule, labeled stream and pair of quotas, one full
pass of the balanced stream emits exactly `min nPos available_pos` positive
and `min nNeg available_neg` negative records, and its length is their sum —
the merge terminates only once both bounded sub-streams are exhausted. -/
theorem class_balancer_emits_min_of_quota (draw : ℕ → Bool) (ds : List LEntry)
    (nPos nNeg : ℕ) :
    (class_balancer draw ds nPos nNeg).countP person_filter
        = min nPos (ds.countP person_filter) ∧
    (class_balancer draw ds nPos nNeg).countP non_person_filter
        = min nNeg (ds.countP non_person_filter) ∧
    (class_balancer draw ds nPos nNeg).length
        = min nPos (ds.countP person_filter)
          + min nNeg (ds.countP non_person_filter) := by
  have hperm : (class_balancer draw ds nPos nNeg).Perm
      ((ds.filter person_filter).take nPos ++ (ds.filter non_person_filter).take nNeg) :=
    sample_from_datasets_perm draw _ _
  have hposAll : ∀ e ∈ (ds.filter person_filter).take nPos, person_filter e :=
    fun e he => (List.mem_filter.1 (List.take_subset _ _ he)).2
  have hnegAll : ∀ e ∈ (ds.filter non_person_filter).take nNeg, non_person_filter e :=
    fun e he => (List.mem_filter.1 (List.take_subset _ _ he)).2
  have hlenPos : ((ds.filter person_filter).take nPos).length
      = min nPos (ds.countP person_filter) := by
    rw [List.length_take, List.countP_eq_length_filter]
  have hlenNeg : ((ds.filter non_person_filter).take nNeg).length
      = min nNeg (ds.countP non_person_filter) := by
    rw [List.length_take, List.countP_eq_length_filter]
  have hPosPos : ((ds.filter person_filter).take nPos).countP person_filter
      = min nPos (ds.countP person_filter) := by
    rw [List.countP_eq_length.2 hposAll, hlenPos]
  have hNegNeg : ((ds.filter non_person_filter).take nNeg).countP non_person_filter
      = min nNeg (ds.countP non_person_filter) := by
    rw [List.countP_eq_length.2 hnegAll, hlenNeg]
  have hNegPos : ((ds.filter non_person_filter).take nNeg).countP person_filter = 0 :=
    List.countP_eq_zero.2 fun e he hp => person_filter_excl e hp (hnegAll e he)
  have hPosNeg : ((ds.filter person_filter).take nPos).countP non_person_filter = 0 :=
    List.countP_eq_zero.2 fun e he hn => person_filter_excl e (hposAll e he) hn
  refine ⟨?_, ?_, ?_⟩
  · rw [hperm.countP_eq, List.countP_append, hPosPos, hNegPos]
    omega
  · rw [hperm.countP_eq, List.countP_append, hPosNeg, hNegNeg]
    omega
  · rw [hperm.length_eq, List.length_append, hlenPos, hlenNeg]

/-- C6 (code bug): label derivation is not total in image-level mode.  On the
well-formed record `entryNoBoxes` (one image-level annotation, no bounding
boxes) the boolean-mask shape error of `check_image_level_label` aborts
`label_person_image_labels`, so no label in {-1, 0, 1} is attached and the
whole split labeling fails. -/
theorem label_person_image_labels_not_total :
    label_person_image_labels entryNoBoxes cfgImageW = none ∧
    label_split cfgImageW [entryNoBoxes] = none := by decide

/-- C7 (counterexample): for a 9×5 image resized toward a 2×2 crop, the code
truncates `orig_height * scale = 18/5` to 3, while the claimed
round-to-nearest formula gives 4. -/
theorem resized_height_round_counterexample :
    (cropParams 9 5 2 2).imageH = 3 ∧ resized_h_spec 9 5 2 = 4 ∧
      (cropParams 9 5 2 2).imageH ≠ resized_h_spec 9 5 2 := by
  have h1 : (cropParams 9 5 2 2).imageH = 3 := by norm_num [cropParams, truncQ]
  have h2 : resized_h_spec 9 5 2 = 4 := by
    rw [resized_h_spec, round_eq]
    norm_num
  exact ⟨h1, h2, by rw [h1, h2]; decide⟩

/-- C7 (amended): the resized dimensions are
`max(target, trunc(orig * scale))` with `scale = target_height / small_side`,
where the cast truncates toward zero rather than rounding to nearest. -/
theorem resized_dims_use_truncation (origH origW targetH targetW : ℕ) :
    (cropParams origH origW targetH targetW).imageH =
      max (targetH : ℤ)
        (truncQ ((origH : ℚ) * ((targetH : ℚ) / ((min origH origW : ℕ) : ℚ)))) ∧
    (cropParams origH origW targetH targetW).imageW =
      max (targetW : ℤ)
        (truncQ ((origW : ℚ) * ((targetH : ℚ) / ((min origH origW : ℕ) : ℚ)))) := by
  constructor <;>
    · simp only [cropParams]
      split_ifs with h
      · exact (max_eq_right (le_of_lt h)).symm
      · exact (max_eq_left (not_lt.1 h)).symm

/-- C8 (counterexample): concept id 68 ("Person") appears both in the core
positive bbox list and in the ambiguous raw-match bbox list, so the two
bbox-mode vocabularies are not disjoint. -/
theorem bbox_concept_lists_overlap :
    (68 : ℤ) ∈ core_bbox_concepts ∧ (68 : ℤ) ∈ ambiguous_bbox_concepts := by decide

/-- C8 (amended): the image-level core and ambiguous concept lists are
disjoint, but in bbox mode every core person concept also appears in the
ambiguous raw-match list (by design: a core box failing the size or
depiction test demotes the record to ambiguous, not negative). -/
theorem concept_lists_disjoint_only_image_mode :
    (∀ c ∈ core_image_concepts, c ∉ ambiguous_image_concepts) ∧
    (∀ c ∈ core_bbox_concepts, c ∈ ambiguous_bbox_concepts) := by decide

/-- C9 (counterexample): the evaluation splits of `get_wake_vision` are
built with `rerandomize_each_iteration = True`, not the claimed false. -/
theorem eval_splits_rerandomize_counterexample :
    (get_wake_vision_call cfgW Split.validation).flags.rerandomize_each_iteration
        = true ∧
    (get_wake_vision_call cfgW Split.test).flags.rerandomize_each_iteration
        = true := by decide

/-- C9 (amended): every split — training and evaluation alike — is balanced
with `rerandomize_each_iteration = True`; the flag is a constant of
`open_images_to_vww2`, not chosen per split kind. -/
theorem rerandomize_true_for_all_splits (cfg : Cfg) (s : Split) :
    (get_wake_vision_call cfg s).flags.rerandomize_each_iteration = true := by
  cases s <;> rfl

/-- C10: the positive and negative quotas coincide in every balancer
instantiation: `open_images_to_vww2` bounds both sub-streams with its single
`count_person_samples` argument, for each split of `get_wake_vision`. -/
theorem balancer_quotas_always_equal (count : ℕ) (cfg : Cfg) (s : Split) :
    (open_images_balancer_call count).posQuota
        = (open_images_balancer_call count).negQuota ∧
    (get_wake_vision_call cfg s).posQuota = (get_wake_vision_call cfg s).negQuota := by
  cases s <;> exact ⟨rfl, rfl⟩

end WakeVision
